import Mathlib

/-!
Verification of the intent-to-command mapping logic of the
whisper-assistant-vscode extension.

The development embeds, as pure Lean functions, the code of
`CommandMapper` (`mapTranscriptionToCommand`, `mapTranscriptionToCommandViaTools`,
`executeCommand`) and the segment conversion inside
`SpeechTranscription.processRecording`.

Modelling conventions:
- A JavaScript string's `.length` is modelled by `String.length`.
- `JSON.parse` is a third-party library call; its behaviour on a given
  payload is a parameter `parse : String → Except Unit Json` of the
  embedded functions (`Except.error` models a thrown parse exception).
- The single outbound chat-completion request is modelled by a parameter
  `respond : Except Unit ChatCompletion` holding what the request would
  return if issued (`Except.error` models a thrown transport failure).
  Each embedded operation reports how many outbound requests it issued
  and how many user-visible error notifications (`showErrorMessage`)
  it emitted, so that "no request issued" and "exactly one notification"
  are provable statements.
- JavaScript numeric fields are carried opaquely; no arithmetic is ever
  performed on them by the embedded code, so they are modelled as `Int`.
-/

/-- A JSON value, the result of a successful `JSON.parse`. -/
inductive Json where
  | null
  | bool (b : Bool)
  | num (n : Int)
  | str (s : String)
  | arr (elems : List Json)
  | obj (fields : List (String × Json))

/-- Total field lookup on a decoded JSON value: the value at `key` when `j`
is an object carrying it, `none` otherwise. This is only a way to state
properties of decoded objects; the JavaScript property access performed by
the source, which throws on `null`, is `Json.accessField` below. -/
def Json.getField : Json → String → Option Json
  | .obj fields, key => fields.lookup key
  | _, _ => none

/-- JavaScript property access `j.key` as performed by the source on a
`JSON.parse` result (`args.filename`, `command-mapper.ts` line 181): on
`null` the access throws a TypeError (`Except.error`); on an object it
yields the value at `key` or `undefined` (= `none`); on any other JSON
value (string, number, boolean, array) primitive boxing makes it yield
`undefined` without throwing. -/
def Json.accessField : Json → String → Except Unit (Option Json)
  | .null, _ => .error ()
  | .obj fields, key => .ok (fields.lookup key)
  | _, _ => .ok none

/-- A segment of a transcription (`speech-transcription.ts`, interface `Segment`).
The source's `end` field is named `endTime` here (`end` is reserved in Lean). -/
structure Segment where
  id : Int
  seek : Int
  start : Int
  endTime : Int
  text : String
  tokens : List Int
  temperature : Int
deriving DecidableEq

/-- The `Transcription` interface of `speech-transcription.ts`. -/
structure Transcription where
  text : String
  segments : List Segment
  language : String

/-- A `function_call` carried by a model message (name and raw JSON-encoded
arguments string). -/
structure FunctionCall where
  name : String
  arguments : String

/-- The function part of a tool call: name and raw arguments string. -/
structure ToolFunction where
  name : String
  arguments : String

/-- One entry of a model message's `tool_calls` array. -/
structure ToolCall where
  type : String
  function : ToolFunction

/-- A model response message: an optional `function_call` and a possibly
empty `tool_calls` array (the absent array is modelled by `[]`). -/
structure Message where
  function_call : Option FunctionCall
  tool_calls : List ToolCall

/-- One choice of a chat completion. -/
structure Choice where
  message : Message

/-- A chat-completion response from the language-model endpoint. -/
structure ChatCompletion where
  choices : List Choice

/-- The closed six-command enumeration declared in the request's function
schema (`command-mapper` sources, `enum` of `executeVSCodeCommand`). -/
def VS_CODE_COMMANDS : List String :=
  ["workbench.action.quickOpen",
   "workbench.action.files.newUntitledFile",
   "workbench.action.files.save",
   "workbench.action.closeActiveEditor",
   "workbench.action.findInFiles",
   "references-view.findReferences"]

/-- Outcome of one `mapTranscriptionToCommand` call: the value resolved to
the caller (the raw parsed JSON object, returned by the source as
`args as CommandMapping` without further processing), the number of
outbound chat-completion requests issued, and the number of user-visible
error notifications emitted. -/
structure MapOutcome where
  result : Option Json
  requests : Nat
  notifications : Nat

/-- Embedding of `CommandMapper.mapTranscriptionToCommand`
(`src/unnamed/part_000` lines 19–97, identical in `part_001`):
guard on empty/short text, one chat-completion request, `JSON.parse` of the
first choice's `function_call.arguments` when that field is non-empty, the
parsed value returned as-is; every thrown failure is caught, logged, and
surfaced as one error notification, resolving to `undefined`. -/
def mapTranscriptionToCommand (t : Transcription)
    (parse : String → Except Unit Json)
    (respond : Except Unit ChatCompletion) : MapOutcome :=
  if t.text = "" ∨ t.text.length ≤ 2 then
    { result := none, requests := 0, notifications := 0 }
  else
    match respond with
    | .error _ => { result := none, requests := 1, notifications := 1 }
    | .ok completion =>
      match completion.choices.head? with
      | none => { result := none, requests := 1, notifications := 0 }
      | some choice =>
        match choice.message.function_call with
        | none => { result := none, requests := 1, notifications := 0 }
        | some fc =>
          if fc.arguments = "" then
            { result := none, requests := 1, notifications := 0 }
          else
            match parse fc.arguments with
            | .ok j => { result := some j, requests := 1, notifications := 0 }
            | .error _ => { result := none, requests := 1, notifications := 1 }

/-- The mapping value built by the tools path: `command` is the result of the
lookup-table access (`undefined` on a miss) and `args` is the raw value of
`args.filename` from the decoded arguments. -/
structure ToolsMapping where
  command : Option String
  args : Option Json

/-- Outcome of one `mapTranscriptionToCommandViaTools` call. -/
structure ToolsOutcome where
  result : Option ToolsMapping
  requests : Nat
  notifications : Nat

/-- The fixed tool-name → host-command lookup table (`commandMap` in
`mapTranscriptionToCommandViaTools`). -/
def commandMap : List (String × String) :=
  [("quickOpen", "workbench.action.quickOpen"),
   ("newFile", "workbench.action.files.newUntitledFile"),
   ("saveFile", "workbench.action.files.save"),
   ("closeEditor", "workbench.action.closeActiveEditor"),
   ("findInFiles", "workbench.action.findInFiles"),
   ("findReferences", "references-view.findReferences")]

/-- Embedding of `CommandMapper.mapTranscriptionToCommandViaTools`
(`src/src/command-mapper.ts` lines 140–193, identical in
`src/unnamed/part_000` lines 109–264): same guard, one request, then the
first tool call of the first choice; when its `type` is `"function"` and its
arguments string is non-empty, the arguments are parsed and the mapping
`\x7b command: commandMap[name], args: args.filename \x7d` is returned.
The property access `args.filename` throws when the parsed arguments are
`null`; that throw, like a parse throw or a transport throw, is caught by
the surrounding try/catch into one notification and an absent result. -/
def mapTranscriptionToCommandViaTools (t : Transcription)
    (parse : String → Except Unit Json)
    (respond : Except Unit ChatCompletion) : ToolsOutcome :=
  if t.text = "" ∨ t.text.length ≤ 2 then
    { result := none, requests := 0, notifications := 0 }
  else
    match respond with
    | .error _ => { result := none, requests := 1, notifications := 1 }
    | .ok completion =>
      match completion.choices.head? with
      | none => { result := none, requests := 1, notifications := 0 }
      | some choice =>
        match choice.message.tool_calls.head? with
        | none => { result := none, requests := 1, notifications := 0 }
        | some toolCall =>
          if toolCall.type = "function" ∧ toolCall.function.arguments ≠ "" then
            match parse toolCall.function.arguments with
            | .ok args =>
              match args.accessField "filename" with
              | .ok v =>
                { result := some { command := commandMap.lookup toolCall.function.name,
                                   args := v },
                  requests := 1, notifications := 0 }
              | .error _ => { result := none, requests := 1, notifications := 1 }
            | .error _ => { result := none, requests := 1, notifications := 1 }
          else
            { result := none, requests := 1, notifications := 0 }

/-- The `CommandMapping` value handed to `executeCommand`: a command
identifier and an optional opaque arguments value. -/
structure CommandMapping where
  command : String
  args : Option Json

/-- Outcome of one `executeCommand` call: the number of user-visible error
notifications emitted. The function resolves to this plain value in every
case, which is how "never raises past its own boundary" is expressed. -/
structure ExecOutcome where
  notifications : Nat
deriving DecidableEq

/-- The body of `executeCommand` before its catch: forward `mapping.command`
and `mapping.args` to the host's `vscode.commands.executeCommand`, whose
behaviour (return or throw) is the parameter `host`. -/
def executeCommandBody (mapping : CommandMapping)
    (host : String → Option Json → Except Unit Unit) : Except Unit Unit :=
  host mapping.command mapping.args

/-- Embedding of `CommandMapper.executeCommand` (`src/src/command-mapper.ts`
lines 28–36): invoke the host command; on a throw, catch it, log, and show
one error notification; always resolve. -/
def executeCommand (mapping : CommandMapping)
    (host : String → Option Json → Except Unit Unit) : ExecOutcome :=
  match executeCommandBody mapping host with
  | .ok _ => { notifications := 0 }
  | .error _ => { notifications := 1 }

/-- Embedding of the segment conversion in
`SpeechTranscription.processRecording` (`src/src/speech-transcription.ts`
lines 240–249): `transcription.segments?.map(...) ?? []`, building each
result segment from the raw one with `seek: 0`, `tokens: []`,
`temperature: 0`. -/
def processRecordingSegments (segments : Option (List Segment)) : List Segment :=
  match segments with
  | some segs =>
    segs.map fun seg =>
      { id := seg.id, seek := 0, start := seg.start, endTime := seg.endTime,
        text := seg.text, tokens := [], temperature := 0 }
  | none => []

/-- A chat completion whose single choice carries no `function_call` and a
single tool call of type `"function"` with the given name and raw
arguments string (test harness for the tools path). -/
def singleToolCompletion (name arguments : String) : ChatCompletion :=
  { choices := [{ message := { function_call := none,
                               tool_calls := [{ type := "function",
                                                function := { name := name,
                                                              arguments := arguments } }] } }] }

/-- Helper: value of the tools path on a `singleToolCompletion` response whose
arguments parse successfully and whose `filename` property access does not
throw (yielding the value `v`). -/
theorem mapViaTools_single_eq (t : Transcription)
    (parse : String → Except Unit Json) (name argStr : String) (j : Json)
    (v : Option Json)
    (hguard : ¬(t.text = "" ∨ t.text.length ≤ 2))
    (hargs : argStr ≠ "")
    (hparse : parse argStr = .ok j)
    (haccess : j.accessField "filename" = .ok v) :
    mapTranscriptionToCommandViaTools t parse (.ok (singleToolCompletion name argStr))
      = { result := some { command := commandMap.lookup name, args := v },
          requests := 1, notifications := 0 } := by
  unfold mapTranscriptionToCommandViaTools singleToolCompletion
  rw [if_neg hguard]
  simp only [List.head?]
  rw [if_pos ⟨by trivial, hargs⟩, hparse]
  simp only [haccess]

/-- Helper: when the decoded arguments are JSON `null`, the `args.filename`
access throws; the tools path catches it, notifies once, and resolves to
absent — the error path the source reaches at `command-mapper.ts` line 181. -/
theorem mapViaTools_null_arguments_notifies (t : Transcription)
    (parse : String → Except Unit Json) (name argStr : String)
    (hguard : ¬(t.text = "" ∨ t.text.length ≤ 2))
    (hargs : argStr ≠ "")
    (hparse : parse argStr = .ok Json.null) :
    mapTranscriptionToCommandViaTools t parse (.ok (singleToolCompletion name argStr))
      = { result := none, requests := 1, notifications := 1 } := by
  unfold mapTranscriptionToCommandViaTools singleToolCompletion
  rw [if_neg hguard]
  simp only [List.head?]
  rw [if_pos ⟨by trivial, hargs⟩, hparse]
  exact rfl

/-- Claim C3: a transcription whose text is empty or of length at most 2 makes
both `mapTranscriptionToCommand` and `mapTranscriptionToCommandViaTools`
return absent immediately, with no outbound request issued (and no
notification emitted), regardless of what the endpoint would answer. -/
theorem map_short_text_guard (t : Transcription)
    (parse : String → Except Unit Json) (respond : Except Unit ChatCompletion)
    (h : t.text = "" ∨ t.text.length ≤ 2) :
    mapTranscriptionToCommand t parse respond
        = { result := none, requests := 0, notifications := 0 } ∧
    mapTranscriptionToCommandViaTools t parse respond
        = { result := none, requests := 0, notifications := 0 } := by
  constructor
  · unfold mapTranscriptionToCommand
    rw [if_pos h]
  · unfold mapTranscriptionToCommandViaTools
    rw [if_pos h]

/-- Witness for C3 at the concrete transcription text `"hi"`. -/
theorem map_short_text_guard_witness :
    mapTranscriptionToCommand
        { text := "hi", segments := [], language := "en" }
        (fun _ => .error ()) (.error ())
      = { result := none, requests := 0, notifications := 0 } ∧
    mapTranscriptionToCommandViaTools
        { text := "hi", segments := [], language := "en" }
        (fun _ => .error ()) (.error ())
      = { result := none, requests := 0, notifications := 0 } :=
  map_short_text_guard _ _ _ (Or.inr (by decide))

/-- Claim C2: when the guard passes and the first choice carries a
`function_call` with a non-empty arguments string that parses to the JSON
value `j`, `mapTranscriptionToCommand` resolves to exactly `j`, unmodified
(no field added, removed, validated, or rewritten), after the single
request. -/
theorem mapTranscription_returns_decoded_unmodified (t : Transcription)
    (parse : String → Except Unit Json) (fc : FunctionCall)
    (tcs : List ToolCall) (rest : List Choice) (j : Json)
    (hguard : ¬(t.text = "" ∨ t.text.length ≤ 2))
    (hargs : fc.arguments ≠ "")
    (hparse : parse fc.arguments = .ok j) :
    mapTranscriptionToCommand t parse
        (.ok { choices := { message := { function_call := some fc,
                                         tool_calls := tcs } } :: rest })
      = { result := some j, requests := 1, notifications := 0 } := by
  unfold mapTranscriptionToCommand
  rw [if_neg hguard]
  simp only [List.head?]
  rw [if_neg hargs, hparse]

/-- Witness for C2 at a concrete transcription, response, and parse outcome. -/
theorem mapTranscription_returns_decoded_unmodified_witness :
    mapTranscriptionToCommand
        { text := "open the config file", segments := [], language := "en" }
        (fun _ => .ok (Json.obj [("command", Json.str "workbench.action.quickOpen")]))
        (.ok ⟨[⟨⟨some ⟨"executeVSCodeCommand", "payload"⟩, []⟩⟩]⟩)
      = { result := some (Json.obj [("command", Json.str "workbench.action.quickOpen")]),
          requests := 1, notifications := 0 } :=
  mapTranscription_returns_decoded_unmodified _ _ _ _ _ _
    (by decide) (by decide) rfl

/-- Claim C6: when the guard passes, a `function_call` with a non-empty
arguments payload is present, and `JSON.parse` throws on that payload,
`mapTranscriptionToCommand` resolves to absent with exactly one
user-visible failure notification — the failure is caught, not raised to
the caller (the call still resolves to a plain `MapOutcome`). -/
theorem mapTranscription_malformed_arguments (t : Transcription)
    (parse : String → Except Unit Json) (fc : FunctionCall)
    (tcs : List ToolCall) (rest : List Choice)
    (hguard : ¬(t.text = "" ∨ t.text.length ≤ 2))
    (hargs : fc.arguments ≠ "")
    (hparse : parse fc.arguments = .error ()) :
    mapTranscriptionToCommand t parse
        (.ok { choices := { message := { function_call := some fc,
                                         tool_calls := tcs } } :: rest })
      = { result := none, requests := 1, notifications := 1 } := by
  unfold mapTranscriptionToCommand
  rw [if_neg hguard]
  simp only [List.head?]
  rw [if_neg hargs, hparse]

/-- Witness for C6 at a concrete transcription and a parse that throws. -/
theorem mapTranscription_malformed_arguments_witness :
    mapTranscriptionToCommand
        { text := "open the config file", segments := [], language := "en" }
        (fun _ => .error ())
        (.ok ⟨[⟨⟨some ⟨"executeVSCodeCommand", "not-json"⟩, []⟩⟩]⟩)
      = { result := none, requests := 1, notifications := 1 } :=
  mapTranscription_malformed_arguments _ _ _ _ _ (by decide) (by decide) rfl

/-- Claim C7: a model response in which no function-call is present (either no
choice at all, or a first choice whose message carries no `function_call`)
makes `mapTranscriptionToCommand` resolve to absent. -/
theorem mapTranscription_no_function_call_absent (t : Transcription)
    (parse : String → Except Unit Json) (completion : ChatCompletion)
    (hnofc : ∀ choice ∈ completion.choices.head?,
               choice.message.function_call = none) :
    (mapTranscriptionToCommand t parse (.ok completion)).result = none := by
  unfold mapTranscriptionToCommand
  by_cases hguard : t.text = "" ∨ t.text.length ≤ 2
  · rw [if_pos hguard]
  · rw [if_neg hguard]
    obtain h | ⟨choice, h⟩ := completion.choices.head?.eq_none_or_eq_some
    · simp only [h]
    · have hfc := hnofc choice (by rw [h]; rfl)
      simp only [h, hfc]

/-- Witness for C7 at a concrete response whose only choice has no
function-call. -/
theorem mapTranscription_no_function_call_absent_witness :
    (mapTranscriptionToCommand
        { text := "open the config file", segments := [], language := "en" }
        (fun _ => .error ())
        (.ok ⟨[⟨⟨none, []⟩⟩]⟩)).result = none :=
  mapTranscription_no_function_call_absent _ _ _
    (by intro choice hc; cases hc; rfl)

/-- Counterexample to claim C1 as stated: a response whose decoded arguments
carry the command `"rogue.command"`, which is outside the six-item
enumeration, is NOT rejected (resolved to absent) by
`mapTranscriptionToCommand`; the decoded object is returned for
execution. -/
theorem mapTranscription_unknown_command_forwarded_cex :
    ("rogue.command" ∉ VS_CODE_COMMANDS) ∧
    ((Json.obj [("command", Json.str "rogue.command")]).getField "command"
        = some (Json.str "rogue.command")) ∧
    ((mapTranscriptionToCommand
        { text := "open something", segments := [], language := "en" }
        (fun _ => .ok (Json.obj [("command", Json.str "rogue.command")]))
        (.ok ⟨[⟨⟨some ⟨"executeVSCodeCommand", "payload"⟩, []⟩⟩]⟩)).result
        = some (Json.obj [("command", Json.str "rogue.command")])) ∧
    ((mapTranscriptionToCommand
        { text := "open something", segments := [], language := "en" }
        (fun _ => .ok (Json.obj [("command", Json.str "rogue.command")]))
        (.ok ⟨[⟨⟨some ⟨"executeVSCodeCommand", "payload"⟩, []⟩⟩]⟩)).result
        ≠ none) :=
  ⟨by decide, rfl, rfl, by intro h; exact Option.noConfusion h⟩

/-- Claim C1 as amended: `mapTranscriptionToCommand` performs no membership
validation against the six-item enumeration; whenever the decoded
arguments parse to a value whose `command` field is a string outside
`VS_CODE_COMMANDS`, that value is still returned as-is for execution (the
enumeration constrains only the request schema sent to the model). -/
theorem mapTranscription_no_enum_validation (t : Transcription)
    (parse : String → Except Unit Json) (fc : FunctionCall)
    (tcs : List ToolCall) (rest : List Choice) (j : Json) (s : String)
    (hguard : ¬(t.text = "" ∨ t.text.length ≤ 2))
    (hargs : fc.arguments ≠ "")
    (hparse : parse fc.arguments = .ok j)
    (_hcmd : j.getField "command" = some (Json.str s))
    (_hout : s ∉ VS_CODE_COMMANDS) :
    (mapTranscriptionToCommand t parse
        (.ok { choices := { message := { function_call := some fc,
                                         tool_calls := tcs } } :: rest })).result
      = some j := by
  unfold mapTranscriptionToCommand
  rw [if_neg hguard]
  simp only [List.head?]
  rw [if_neg hargs, hparse]

/-- Witness for the amended C1 at the concrete out-of-enum command
`"rogue.command"`. -/
theorem mapTranscription_no_enum_validation_witness :
    (mapTranscriptionToCommand
        { text := "open something else", segments := [], language := "en" }
        (fun _ => .ok (Json.obj [("command", Json.str "rogue.command")]))
        (.ok ⟨[⟨⟨some ⟨"executeVSCodeCommand", "payload"⟩, []⟩⟩]⟩)).result
      = some (Json.obj [("command", Json.str "rogue.command")]) :=
  mapTranscription_no_enum_validation _ _ _ _ _ _ "rogue.command"
    (by decide) (by decide) rfl rfl (by decide)

/-- Claim C4: on a response whose first tool-call uses one of the six tool
names, with a non-empty, successfully parsed arguments payload whose
`filename` property access does not throw, the tools path returns a
mapping whose `command` field is the corresponding fixed host command
identifier from the lookup table — all six mappings. -/
theorem mapViaTools_six_tool_mappings (t : Transcription)
    (parse : String → Except Unit Json) (argStr : String) (j : Json)
    (v : Option Json)
    (hguard : ¬(t.text = "" ∨ t.text.length ≤ 2))
    (hargs : argStr ≠ "")
    (hparse : parse argStr = .ok j)
    (haccess : j.accessField "filename" = .ok v) :
    ((mapTranscriptionToCommandViaTools t parse
        (.ok (singleToolCompletion "quickOpen" argStr))).result
      = some { command := some "workbench.action.quickOpen", args := v }) ∧
    ((mapTranscriptionToCommandViaTools t parse
        (.ok (singleToolCompletion "newFile" argStr))).result
      = some { command := some "workbench.action.files.newUntitledFile",
               args := v }) ∧
    ((mapTranscriptionToCommandViaTools t parse
        (.ok (singleToolCompletion "saveFile" argStr))).result
      = some { command := some "workbench.action.files.save", args := v }) ∧
    ((mapTranscriptionToCommandViaTools t parse
        (.ok (singleToolCompletion "closeEditor" argStr))).result
      = some { command := some "workbench.action.closeActiveEditor",
               args := v }) ∧
    ((mapTranscriptionToCommandViaTools t parse
        (.ok (singleToolCompletion "findInFiles" argStr))).result
      = some { command := some "workbench.action.findInFiles", args := v }) ∧
    ((mapTranscriptionToCommandViaTools t parse
        (.ok (singleToolCompletion "findReferences" argStr))).result
      = some { command := some "references-view.findReferences",
               args := v }) := by
  refine ⟨?_, ?_, ?_, ?_, ?_, ?_⟩ <;>
    · rw [mapViaTools_single_eq t parse _ argStr j v hguard hargs hparse haccess]
      exact rfl

/-- Witness for C4 at a concrete transcription and parse outcome. -/
theorem mapViaTools_six_tool_mappings_witness :
    ((mapTranscriptionToCommandViaTools
        { text := "open the config file", segments := [], language := "en" }
        (fun _ => .ok (Json.obj [("filename", Json.str "config")]))
        (.ok (singleToolCompletion "quickOpen" "payload"))).result
      = some { command := some "workbench.action.quickOpen",
               args := some (Json.str "config") }) ∧
    ((mapTranscriptionToCommandViaTools
        { text := "open the config file", segments := [], language := "en" }
        (fun _ => .ok (Json.obj [("filename", Json.str "config")]))
        (.ok (singleToolCompletion "newFile" "payload"))).result
      = some { command := some "workbench.action.files.newUntitledFile",
               args := some (Json.str "config") }) ∧
    ((mapTranscriptionToCommandViaTools
        { text := "open the config file", segments := [], language := "en" }
        (fun _ => .ok (Json.obj [("filename", Json.str "config")]))
        (.ok (singleToolCompletion "saveFile" "payload"))).result
      = some { command := some "workbench.action.files.save",
               args := some (Json.str "config") }) ∧
    ((mapTranscriptionToCommandViaTools
        { text := "open the config file", segments := [], language := "en" }
        (fun _ => .ok (Json.obj [("filename", Json.str "config")]))
        (.ok (singleToolCompletion "closeEditor" "payload"))).result
      = some { command := some "workbench.action.closeActiveEditor",
               args := some (Json.str "config") }) ∧
    ((mapTranscriptionToCommandViaTools
        { text := "open the config file", segments := [], language := "en" }
        (fun _ => .ok (Json.obj [("filename", Json.str "config")]))
        (.ok (singleToolCompletion "findInFiles" "payload"))).result
      = some { command := some "workbench.action.findInFiles",
               args := some (Json.str "config") }) ∧
    ((mapTranscriptionToCommandViaTools
        { text := "open the config file", segments := [], language := "en" }
        (fun _ => .ok (Json.obj [("filename", Json.str "config")]))
        (.ok (singleToolCompletion "findReferences" "payload"))).result
      = some { command := some "references-view.findReferences",
               args := some (Json.str "config") }) :=
  mapViaTools_six_tool_mappings
    { text := "open the config file", segments := [], language := "en" }
    (fun _ => .ok (Json.obj [("filename", Json.str "config")]))
    "payload" (Json.obj [("filename", Json.str "config")])
    (some (Json.str "config"))
    (by decide) (by decide) rfl rfl

/-- Claim C5: on a response whose first tool-call carries decodable arguments
holding a string `filename` field, the tools path returns a mapping whose
`args` field is the raw filename string value itself, not an object of
shape \x7b filename \x7d as built by the primary path's schema. -/
theorem mapViaTools_raw_filename_args (t : Transcription)
    (parse : String → Except Unit Json) (name argStr s : String)
    (hguard : ¬(t.text = "" ∨ t.text.length ≤ 2))
    (hargs : argStr ≠ "")
    (hparse : parse argStr = .ok (Json.obj [("filename", Json.str s)])) :
    ∃ m : ToolsMapping,
      (mapTranscriptionToCommandViaTools t parse
          (.ok (singleToolCompletion name argStr))).result = some m ∧
      m.args = some (Json.str s) ∧
      ∀ fields : List (String × Json), m.args ≠ some (Json.obj fields) := by
  refine ⟨{ command := commandMap.lookup name, args := some (Json.str s) },
          ?_, rfl, ?_⟩
  · rw [mapViaTools_single_eq t parse name argStr _ (some (Json.str s))
          hguard hargs hparse (by exact rfl)]
  · intro fields h
    injection h with h'
    exact Json.noConfusion h'

/-- Witness for C5 at a concrete tool call and filename value. -/
theorem mapViaTools_raw_filename_args_witness :
    ∃ m : ToolsMapping,
      (mapTranscriptionToCommandViaTools
          { text := "save this file", segments := [], language := "en" }
          (fun _ => .ok (Json.obj [("filename", Json.str "mainUtils")]))
          (.ok (singleToolCompletion "saveFile" "payload"))).result = some m ∧
      m.args = some (Json.str "mainUtils") ∧
      ∀ fields : List (String × Json), m.args ≠ some (Json.obj fields) :=
  mapViaTools_raw_filename_args
    { text := "save this file", segments := [], language := "en" }
    (fun _ => .ok (Json.obj [("filename", Json.str "mainUtils")]))
    "saveFile" "payload" "mainUtils" (by decide) (by decide) rfl

/-- Claim C10: on a response whose first tool-call uses a function name
outside the six known tool names (here `"deleteEverything"`, with
decodable arguments whose `filename` property access does not throw), the
tools path does not return absent: it returns a mapping whose `command`
field is `undefined` (= `none`), the forwarded miss of the lookup table. -/
theorem mapViaTools_unknown_tool_forwarded (t : Transcription)
    (parse : String → Except Unit Json) (argStr : String) (j : Json)
    (v : Option Json)
    (hguard : ¬(t.text = "" ∨ t.text.length ≤ 2))
    (hargs : argStr ≠ "")
    (hparse : parse argStr = .ok j)
    (haccess : j.accessField "filename" = .ok v) :
    ("deleteEverything" ∉ commandMap.map Prod.fst) ∧
    ((mapTranscriptionToCommandViaTools t parse
        (.ok (singleToolCompletion "deleteEverything" argStr))).result
      = some { command := none, args := v }) := by
  refine ⟨by decide, ?_⟩
  rw [mapViaTools_single_eq t parse _ argStr j v hguard hargs hparse haccess]
  exact rfl

/-- Witness for C10 at a concrete transcription and parse outcome. -/
theorem mapViaTools_unknown_tool_forwarded_witness :
    ("deleteEverything" ∉ commandMap.map Prod.fst) ∧
    ((mapTranscriptionToCommandViaTools
        { text := "please delete everything", segments := [], language := "en" }
        (fun _ => .ok (Json.obj [("filename", Json.str "stuff")]))
        (.ok (singleToolCompletion "deleteEverything" "payload"))).result
      = some { command := none, args := some (Json.str "stuff") }) :=
  mapViaTools_unknown_tool_forwarded
    { text := "please delete everything", segments := [], language := "en" }
    (fun _ => .ok (Json.obj [("filename", Json.str "stuff")]))
    "payload" (Json.obj [("filename", Json.str "stuff")])
    (some (Json.str "stuff"))
    (by decide) (by decide) rfl rfl

/-- Claim C8: for every mapping, even one whose named host command throws,
`executeCommand` never raises past its own boundary: the throw is caught
and the call resolves to a plain outcome carrying exactly one user-visible
failure notification. -/
theorem executeCommand_never_raises (mapping : CommandMapping)
    (host : String → Option Json → Except Unit Unit)
    (hthrow : executeCommandBody mapping host = .error ()) :
    executeCommand mapping host = { notifications := 1 } := by
  unfold executeCommand
  rw [hthrow]

/-- Witness for C8 at a concrete mapping and an always-throwing host. -/
theorem executeCommand_never_raises_witness :
    executeCommand { command := "workbench.action.files.save", args := none }
        (fun _ _ => .error ())
      = { notifications := 1 } :=
  executeCommand_never_raises _ _ rfl

/-- Counterexample to claim C9 as stated: the segment conversion in
`processRecording` does not pass a raw segment through unchanged — a raw
segment with `seek = 5`, `tokens = [7, 8]`, `temperature = 3` comes out
with those fields reset to `0`, `[]`, `0`. -/
theorem processRecording_segments_not_passthrough_cex :
    (processRecordingSegments
        (some [{ id := 1, seek := 5, start := 10, endTime := 20,
                 text := "hello", tokens := [7, 8], temperature := 3 }])
      = [{ id := 1, seek := 0, start := 10, endTime := 20,
           text := "hello", tokens := [], temperature := 0 }]) ∧
    (processRecordingSegments
        (some [{ id := 1, seek := 5, start := 10, endTime := 20,
                 text := "hello", tokens := [7, 8], temperature := 3 }])
      ≠ [{ id := 1, seek := 5, start := 10, endTime := 20,
           text := "hello", tokens := [7, 8], temperature := 3 }]) := by
  constructor
  · rfl
  · decide

/-- Claim C9 as amended: for every raw segment list, the conversion in
`processRecording` preserves `id`, `start`, `end` and `text` unchanged,
while `seek`, `tokens` and `temperature` are not passed through but reset
to `0`, `[]` and `0` respectively. -/
theorem processRecording_segments_preserved_and_reset (segs : List Segment) :
    List.Forall₂ (fun raw out =>
        out.id = raw.id ∧ out.start = raw.start ∧ out.endTime = raw.endTime ∧
        out.text = raw.text ∧
        out.seek = 0 ∧ out.tokens = [] ∧ out.temperature = 0)
      segs (processRecordingSegments (some segs)) := by
  induction segs with
  | nil => exact List.Forall₂.nil
  | cons head tail ih =>
    exact List.Forall₂.cons ⟨rfl, rfl, rfl, rfl, rfl, rfl, rfl⟩ ih
